import Mathlib

/-!
Shallow embedding of src/server.js, the backend of the Yasha Tech portal.

The program persists each collection as one JSON file in a data
directory.  We model the data directory as an association list from file
name to document, where a document is either the value that its text
parses to (Doc.parsed) or raw text that JSON.parse rejects
(Doc.corrupt).  JSON.stringify of a serializable value reparses to a
deeply equal value, so saveJson writes a Doc.parsed document.

JavaScript strings are Lean strings.  The JavaScript numbers that occur
in the routes are integers or NaN, modelled by JsNum.  Request body
fields that the routes test with the falsiness operator are modelled by
String (falsy iff empty) or Option String (absent or a string), and the
progress field of the course PATCH route, on which the code calls
Number, is modelled by a small JsValue type.  Nondeterministic inputs
(Date.now, new Date().toISOString()) are passed to each handler as an
explicit parameter.
-/

/-- Model of a JavaScript number as the routes produce them: NaN or an
integer value. -/
inductive JsNum where
  | nan : JsNum
  | int (i : Int) : JsNum
deriving DecidableEq, Repr

/-- Model of a JSON-decoded JavaScript value for fields whose type the
routes do not constrain (the progress field of the course PATCH route).
An absent body field reads as undefined. -/
inductive JsValue where
  | undefined : JsValue
  | null : JsValue
  | bool (b : Bool) : JsValue
  | num (n : JsNum) : JsValue
  | str (s : String) : JsValue
deriving DecidableEq, Repr

/-- JavaScript truthiness: undefined, null, false, 0, NaN and the empty
string are falsy; everything else here is truthy. -/
def truthy : JsValue → Bool
  | .undefined => false
  | .null => false
  | .bool b => b
  | .num .nan => false
  | .num (.int i) => i != 0
  | .str s => s != ""

/-- The JavaScript logical-or operator: returns the left operand when
it is truthy, otherwise the right operand. -/
def jsOr (a b : JsValue) : JsValue := if truthy a then a else b

/-- Decimal digit accumulator for the model of Number on strings. -/
def decDigitsAux : List Char → Nat → Option Nat
  | [], acc => some acc
  | c :: rest, acc =>
    if c.isDigit then decDigitsAux rest (acc * 10 + (c.toNat - 48)) else none

/-- Reads a nonempty list of decimal digits as a natural number. -/
def decDigits : List Char → Option Nat
  | [] => none
  | l => decDigitsAux l 0

/-- Model of the JavaScript Number coercion on strings, restricted to
the shapes that occur here: the empty string converts to 0, an
optional-minus-sign decimal integer literal converts to its value, and
any other string converts to NaN. -/
def strToNum (s : String) : JsNum :=
  match s.data with
  | [] => .int 0
  | '-' :: rest =>
    match decDigits rest with
    | some n => .int (-(n : Int))
    | none => .nan
  | l =>
    match decDigits l with
    | some n => .int (n : Int)
    | none => .nan

/-- Model of the JavaScript Number coercion. -/
def toNumber : JsValue → JsNum
  | .undefined => .nan
  | .null => .int 0
  | .bool b => .int (if b then 1 else 0)
  | .num n => n
  | .str s => strToNum s

/-- Model of String.prototype.toLowerCase, character by character (the
emails in this system are ASCII, where this agrees with JavaScript). -/
def String.toLowerCase (s : String) : String := ⟨s.data.map Char.toLower⟩

/-- One stored JSON document: either the value its text parses to, or
raw text on which JSON.parse throws. -/
inductive Doc (α : Type) where
  | parsed (v : α) : Doc α
  | corrupt (raw : String) : Doc α
deriving DecidableEq, Repr

/-- The data directory: file name to document.  writeFileSync replaces
a document in full; we model the replacement by shadowing, reading the
first match. -/
abbrev Fs (α : Type) : Type := List (String × Doc α)

/-- Reads the document stored under a file name, if any (existsSync
plus readFileSync). -/
def Fs.read {α : Type} : Fs α → String → Option (Doc α)
  | [], _ => none
  | (n, d) :: rest, name => if n = name then some d else Fs.read rest name

/-- server.js loadJson: when the file does not exist, return the
fallback; otherwise read it and JSON.parse it, returning the fallback
from the catch block when parsing throws. -/
def loadJson {α : Type} (fs : Fs α) (fileName : String) (fallback : α) : α :=
  match Fs.read fs fileName with
  | none => fallback
  | some (Doc.parsed v) => v
  | some (Doc.corrupt _) => fallback

/-- State-passing form of loadJson.  The body of loadJson only calls
the read primitives existsSync and readFileSync, never a write, so the
file system it returns is the one it was given. -/
def loadJsonS {α : Type} (fs : Fs α) (fileName : String) (fallback : α) : α × Fs α :=
  (loadJson fs fileName fallback, fs)

/-- server.js saveJson: JSON.stringify the value and overwrite the file
in full. -/
def saveJson {α : Type} (fs : Fs α) (fileName : String) (value : α) : Fs α :=
  (fileName, Doc.parsed value) :: fs

/-- Replaces the first element satisfying the predicate.  This is the
translation of the mutation pattern idx = findIndex(p); l[idx] = x used
by the routes. -/
def replaceFirst {α : Type} (p : α → Bool) (x : α) : List α → List α
  | [] => []
  | a :: rest => if p a then x :: rest else a :: replaceFirst p x rest

-- Store lemmas shared by the route proofs.

theorem loadJson_saveJson {α : Type} (fs : Fs α) (name : String) (v fb : α) :
    loadJson (saveJson fs name v) name fb = v := by
  simp [loadJson, saveJson, Fs.read]

theorem find?_append_none {α : Type} {p : α → Bool} {l1 : List α}
    (h : l1.find? p = none) (l2 : List α) :
    (l1 ++ l2).find? p = l2.find? p := by
  induction l1 with
  | nil => rfl
  | cons a rest ih =>
    rw [List.find?_cons] at h
    cases hp : p a with
    | true => rw [hp] at h; exact absurd h (by simp)
    | false =>
      rw [hp] at h
      simpa [List.find?_cons, hp] using ih h

theorem replaceFirst_append_none {α : Type} {p : α → Bool} {l1 : List α}
    (h : l1.find? p = none) (x : α) (l2 : List α) :
    replaceFirst p x (l1 ++ l2) = l1 ++ replaceFirst p x l2 := by
  induction l1 with
  | nil => rfl
  | cons a rest ih =>
    rw [List.find?_cons] at h
    cases hp : p a with
    | true => rw [hp] at h; exact absurd h (by simp)
    | false =>
      rw [hp] at h
      simp [replaceFirst, hp, ih h]

theorem find?_replaceFirst_same {α : Type} {p : α → Bool} {l : List α} {a x : α}
    (h : l.find? p = some a) (hx : p x = true) :
    (replaceFirst p x l).find? p = some x := by
  induction l with
  | nil => simp [List.find?] at h
  | cons b rest ih =>
    cases hp : p b with
    | true => simp [replaceFirst, hp, List.find?_cons, hx]
    | false =>
      rw [List.find?_cons, hp] at h
      simp [replaceFirst, hp, List.find?_cons, ih h]

theorem map_replaceFirst {α β : Type} (f : α → β) {p : α → Bool} {x : α}
    (h : ∀ a, p a = true → f x = f a) (l : List α) :
    (replaceFirst p x l).map f = l.map f := by
  induction l with
  | nil => rfl
  | cons a rest ih =>
    cases hp : p a with
    | true => simp [replaceFirst, hp, h a hp]
    | false => simp [replaceFirst, hp, ih]

theorem filter_nil_of_find?_none {α : Type} {p : α → Bool} {l : List α}
    (h : l.find? p = none) : l.filter p = [] := by
  rw [List.find?_eq_none] at h
  simpa [List.filter_eq_nil_iff] using fun a ha => h a ha

-- ------------------------------------------------------------------
-- Users collection (users.json) and the auth / admin / course routes.
-- ------------------------------------------------------------------

/-- One entry of a student course list: \x7b name, progress \x7d. -/
structure Course where
  name : String
  progress : JsNum
deriving DecidableEq, Repr

/-- One project log entry: \x7b text, time \x7d. -/
structure LogEntry where
  text : String
  time : String
deriving DecidableEq, Repr

/-- One record of the users collection, as built by the signup route.
The profile field is an object, modelled as an association list. -/
structure User where
  name : String
  email : String
  phone : String
  password : String
  role : String
  courseType : Option String
  status : String
  createdAt : String
  courses : List Course
  projectLog : List LogEntry
  profile : List (String × String)
deriving DecidableEq, Repr

/-- The users collection file name. -/
def usersFile : String := "users.json"

/-- The users collection file system. -/
abbrev UsersFs : Type := Fs (List User)

/-- Body of a signup request.  The five required fields are strings
(the route rejects falsy values, that is the empty string in this
model); courseType may be absent. -/
structure SignupReq where
  name : String
  email : String
  phone : String
  password : String
  role : String
  courseType : Option String
deriving DecidableEq, Repr

/-- The expression courseType or-else null of the signup route: a
falsy courseType (absent or empty string) becomes null. -/
def courseTypeOrNull : Option String → Option String
  | some s => if s = "" then none else some s
  | none => none

/-- The user record the signup route builds and pushes (server.js
lines 128 to 140); now is new Date().toISOString(). -/
def mkUser (now : String) (r : SignupReq) : User :=
  { name := r.name
    email := r.email
    phone := r.phone
    password := r.password
    role := r.role
    courseType := if r.role = "student" then courseTypeOrNull r.courseType else none
    status := "pending"
    createdAt := now
    courses := []
    projectLog := []
    profile := [] }

/-- Responses of POST /api/auth/signup. -/
inductive SignupRes where
  | missingFields : SignupRes
  | emailRegistered : SignupRes
  | created (user : User) : SignupRes
deriving DecidableEq, Repr

/-- HTTP status code of each signup response. -/
def SignupRes.code : SignupRes → Nat
  | .missingFields => 400
  | .emailRegistered => 409
  | .created _ => 201

/-- POST /api/auth/signup (server.js lines 116 to 145): reject when a
required field is falsy; load users.json; reject 409 when some user
has the same email case-insensitively; otherwise push the new record
and save. -/
def signup (now : String) (r : SignupReq) (fs : UsersFs) : SignupRes × UsersFs :=
  if r.name = "" ∨ r.email = "" ∨ r.phone = "" ∨ r.password = "" ∨ r.role = "" then
    (.missingFields, fs)
  else
    let users := loadJson fs usersFile []
    match users.find? (fun u => u.email.toLowerCase == r.email.toLowerCase) with
    | some _ => (.emailRegistered, fs)
    | none =>
      let newUser := mkUser now r
      (.created newUser, saveJson fs usersFile (users ++ [newUser]))

/-- Body of a login request. -/
structure LoginReq where
  email : String
  password : String
  role : String
deriving DecidableEq, Repr

/-- The user object of the login success body (server.js lines 174 to
180): exactly name, email, role, status and courseType. -/
structure PublicUser where
  name : String
  email : String
  role : String
  status : String
  courseType : Option String
deriving DecidableEq, Repr

/-- Projection of a user record onto the login success body. -/
def publicOf (u : User) : PublicUser :=
  { name := u.name
    email := u.email
    role := u.role
    status := u.status
    courseType := u.courseType }

/-- Responses of POST /api/auth/login.  missingFields is 400,
invalidCredentials is 401, pendingApproval and rejected are 403, ok is
the 200 success response. -/
inductive LoginRes where
  | missingFields : LoginRes
  | invalidCredentials : LoginRes
  | pendingApproval : LoginRes
  | rejected : LoginRes
  | ok (user : PublicUser) : LoginRes
deriving DecidableEq, Repr

/-- The predicate of the find call of the login route: email matches
case-insensitively, password matches exactly, and the role (defaulted
to student when falsy) matches exactly. -/
def loginMatch (r : LoginReq) (u : User) : Bool :=
  u.email.toLowerCase == r.email.toLowerCase &&
  u.password == r.password &&
  (if u.role = "" then "student" else u.role) == r.role

/-- POST /api/auth/login (server.js lines 148 to 182).  The route only
reads users.json, so it returns no file system. -/
def login (r : LoginReq) (fs : UsersFs) : LoginRes :=
  if r.email = "" ∨ r.password = "" ∨ r.role = "" then .missingFields
  else
    let users := loadJson fs usersFile []
    match users.find? (loginMatch r) with
    | none => .invalidCredentials
    | some u =>
      if u.status = "pending" then .pendingApproval
      else if u.status = "rejected" then .rejected
      else .ok (publicOf u)

/-- Responses of PATCH /api/admin/users/:email/status. -/
inductive StatusRes where
  | invalidStatus : StatusRes
  | notFound : StatusRes
  | updated (user : User) : StatusRes
deriving DecidableEq, Repr

/-- PATCH /api/admin/users/:email/status (server.js lines 191 to 205):
reject a status outside the allowed three; find the user by
case-insensitive email; set its status field and save. -/
def setStatus (emailParam status : String) (fs : UsersFs) : StatusRes × UsersFs :=
  if ¬(status = "pending" ∨ status = "approved" ∨ status = "rejected") then
    (.invalidStatus, fs)
  else
    let users := loadJson fs usersFile []
    match users.find? (fun u => u.email.toLowerCase == emailParam.toLowerCase) with
    | none => (.notFound, fs)
    | some u =>
      let u' := { u with status := status }
      let users' := replaceFirst (fun v => v.email.toLowerCase == emailParam.toLowerCase) u' users
      (.updated u', saveJson fs usersFile users')

/-- Responses of POST /api/students/:email/courses. -/
inductive AddCourseRes where
  | nameRequired : AddCourseRes
  | studentNotFound : AddCourseRes
  | alreadyAdded : AddCourseRes
  | courseAdded (courses : List Course) : AddCourseRes
deriving DecidableEq, Repr

/-- HTTP status code of each add-course response. -/
def AddCourseRes.code : AddCourseRes → Nat
  | .nameRequired => 400
  | .studentNotFound => 404
  | .alreadyAdded => 409
  | .courseAdded _ => 201

/-- POST /api/students/:email/courses (server.js lines 251 to 270):
reject a falsy name; find the student by lower-cased email; 409 when a
course of that exact name is already present; otherwise push
\x7b name, progress: 0 \x7d and save. -/
def addCourse (emailParam name : String) (fs : UsersFs) : AddCourseRes × UsersFs :=
  if name = "" then (.nameRequired, fs)
  else
    let email := emailParam.toLowerCase
    let users := loadJson fs usersFile []
    match users.find? (fun u => u.email.toLowerCase == email) with
    | none => (.studentNotFound, fs)
    | some me =>
      match me.courses.find? (fun c => c.name == name) with
      | some _ => (.alreadyAdded, fs)
      | none =>
        let me' := { me with courses := me.courses ++ [{ name := name, progress := .int 0 }] }
        (.courseAdded me'.courses,
         saveJson fs usersFile (replaceFirst (fun u => u.email.toLowerCase == email) me' users))

/-- Responses of PATCH /api/students/:email/courses. -/
inductive PatchCourseRes where
  | nameRequired : PatchCourseRes
  | studentNotFound : PatchCourseRes
  | courseNotFound : PatchCourseRes
  | updated (course : Course) : PatchCourseRes
deriving DecidableEq, Repr

/-- PATCH /api/students/:email/courses (server.js lines 272 to 291):
reject a falsy name; find the student by lower-cased email, then the
course by exact name; set its progress to Number(progress or-else 0)
and save. -/
def patchCourse (emailParam name : String) (progress : JsValue) (fs : UsersFs) :
    PatchCourseRes × UsersFs :=
  if name = "" then (.nameRequired, fs)
  else
    let email := emailParam.toLowerCase
    let users := loadJson fs usersFile []
    match users.find? (fun u => u.email.toLowerCase == email) with
    | none => (.studentNotFound, fs)
    | some me =>
      match me.courses.find? (fun c => c.name == name) with
      | none => (.courseNotFound, fs)
      | some c =>
        let c' := { c with progress := toNumber (jsOr progress (.num (.int 0))) }
        let me' := { me with courses := replaceFirst (fun cc => cc.name == name) c' me.courses }
        (.updated c',
         saveJson fs usersFile (replaceFirst (fun u => u.email.toLowerCase == email) me' users))

-- ------------------------------------------------------------------
-- Questions collection (questions.json) and its list route.
-- ------------------------------------------------------------------

/-- One record of the questions collection.  The createdAt ISO
timestamp is modelled by its epoch-millisecond value: toISOString is
injective and order-preserving, and new Date on its output recovers
this value, which is what the sort comparator of the list route
subtracts. -/
structure Question where
  id : String
  course : String
  videoId : String
  videoTitle : Option String
  studentName : Option String
  studentPhone : Option String
  studentEmail : String
  question : String
  timeText : Option String
  createdAt : Nat
deriving DecidableEq, Repr

/-- The questions collection file name. -/
def questionsFile : String := "questions.json"

/-- GET /api/questions (server.js lines 455 to 462): load the
collection, filter by course when the query names one, and sort newest
first by the comparator new Date(b.createdAt) - new Date(a.createdAt). -/
def getQuestions (course : Option String) (fs : Fs (List Question)) : List Question :=
  let questions := loadJson fs questionsFile []
  let list := match course with
    | some c => questions.filter (fun (q : Question) => q.course == c)
    | none => questions
  list.mergeSort (fun a b => b.createdAt ≤ a.createdAt)

-- ------------------------------------------------------------------
-- Operation model for the users-collection invariant.
-- ------------------------------------------------------------------

/-- One request against the users collection: a signup or an admin
status update. -/
inductive Op where
  | signup (now : String) (r : SignupReq) : Op
  | setStatus (email status : String) : Op
deriving DecidableEq, Repr

/-- The users file system a request leaves behind. -/
def applyOp (fs : UsersFs) : Op → UsersFs
  | .signup now r => (signup now r fs).2
  | .setStatus e s => (setStatus e s fs).2

/-- No two records of the users collection have case-insensitively
equal emails. -/
def usersUnique (users : List User) : Prop :=
  (users.map (fun u => u.email.toLowerCase)).Pairwise (fun a b => a ≠ b)

-- ------------------------------------------------------------------
-- Claims about the record store.
-- ------------------------------------------------------------------

/-- C2: saving a value under a collection name and then loading that
name with no intervening writer returns a value deeply equal to the
saved one, for any fallback. -/
theorem save_load_roundtrip {α : Type} (fs : Fs α) (name : String) (v fb : α) :
    loadJson (saveJson fs name v) name fb = v :=
  loadJson_saveJson fs name v fb

/-- C3: when the document stored under a name does not parse as JSON,
loadJson returns the supplied fallback instead of signalling an error;
in particular with fallback nil it returns nil. -/
theorem load_corrupt_returns_fallback {α : Type} (fs : Fs α) (name raw : String) (fb : α)
    (h : Fs.read fs name = some (Doc.corrupt raw)) :
    loadJson fs name fb = fb := by
  simp [loadJson, h]

/-- Witness for C3 at the concrete document "not valid json" and the
fallback nil. -/
theorem load_corrupt_returns_fallback_witness :
    loadJson [("questions.json", (Doc.corrupt "not valid json" : Doc (List Nat)))]
      "questions.json" ([] : List Nat) = [] :=
  load_corrupt_returns_fallback _ "questions.json" "not valid json" [] rfl

/-- C4: loading a collection whose backing document does not exist
returns exactly the fallback, and the file system after the read is
the file system before it (the read creates no file). -/
theorem load_missing_returns_fallback {α : Type} (fs : Fs α) (name : String) (fb : α)
    (h : Fs.read fs name = none) :
    loadJsonS fs name fb = (fb, fs) := by
  simp [loadJsonS, loadJson, h]

/-- Witness for C4 at a concrete file system without the read file. -/
theorem load_missing_returns_fallback_witness :
    loadJsonS [("users.json", (Doc.parsed [1, 2, 3] : Doc (List Nat)))] "tests.json"
      ([] : List Nat)
      = ([], [("users.json", (Doc.parsed [1, 2, 3] : Doc (List Nat)))]) :=
  load_missing_returns_fallback _ "tests.json" [] rfl

/-- C7: listing questions without a course filter returns a
permutation of the stored records that is pairwise ordered by
createdAt descending; no order among equal timestamps is claimed. -/
theorem questions_sorted_desc (fs : Fs (List Question)) :
    (getQuestions none fs).Perm (loadJson fs questionsFile []) ∧
    (getQuestions none fs).Pairwise (fun a b => b.createdAt ≤ a.createdAt) := by
  constructor
  · exact List.mergeSort_perm (loadJson fs questionsFile []) _
  · have h := @List.sorted_mergeSort Question
      (fun a b : Question => decide (b.createdAt ≤ a.createdAt))
      (by intro a b c hab hbc; simp only [decide_eq_true_eq] at *; omega)
      (by intro a b; simp only [Bool.or_eq_true, decide_eq_true_eq]; omega)
      (loadJson fs questionsFile [])
    exact h.imp (by intro a b hb; simpa using hb)

-- ------------------------------------------------------------------
-- Claim C1: signup with "A@X.com", then login with "a@x.com".
-- ------------------------------------------------------------------

/-- A concrete valid signup request with email "A@X.com". -/
def c1Req : SignupReq :=
  { name := "Ada", email := "A@X.com", phone := "1", password := "pw",
    role := "student", courseType := none }

/-- C1 counterexample: the signup with email "A@X.com" is accepted
(201), but the immediate login with "a@x.com" and the same password
and role returns the 403 pending-approval response, not the success
response, because signup stores status pending. -/
theorem signup_then_immediate_login_pending_cex :
    (signup "2025-01-01T00:00:00.000Z" c1Req ([] : UsersFs)).1
      = SignupRes.created (mkUser "2025-01-01T00:00:00.000Z" c1Req) ∧
    login { email := "a@x.com", password := "pw", role := "student" }
      (signup "2025-01-01T00:00:00.000Z" c1Req ([] : UsersFs)).2
      = LoginRes.pendingApproval := by
  constructor <;> decide

/-- C1 amended: for every signup with email "A@X.com" that is accepted
(201), the subsequent login with "a@x.com" and the same password and
role matches the stored user case-insensitively: it does not fail as
invalid credentials but returns the pending-approval response, and
after the admin sets the account status to approved the same login
returns the success response. -/
theorem signup_then_login_after_approval (now : String) (r : SignupReq) (fs : UsersFs)
    (u : User) (fs1 : UsersFs)
    (he : r.email = "A@X.com")
    (h : signup now r fs = (SignupRes.created u, fs1)) :
    login { email := "a@x.com", password := r.password, role := r.role } fs1
      = LoginRes.pendingApproval ∧
    login { email := "a@x.com", password := r.password, role := r.role }
      (setStatus "a@x.com" "approved" fs1).2
      = LoginRes.ok (publicOf { u with status := "approved" }) := by
  simp only [signup] at h
  rw [he] at h
  rw [show ("A@X.com".toLowerCase) = "a@x.com" from rfl] at h
  split at h
  · simp at h
  · rename_i hvalid
    push_neg at hvalid
    obtain ⟨hn, hem, hph, hpw, hrl⟩ := hvalid
    split at h
    · simp at h
    · rename_i hfind
      simp only [Prod.mk.injEq, SignupRes.created.injEq] at h
      obtain ⟨hu, hfs1⟩ := h
      subst hu
      subst hfs1
      have hcond : ¬("a@x.com" = "" ∨ r.password = "" ∨ r.role = "") := by
        push_neg
        exact ⟨by decide, hpw, hrl⟩
      have hpre : (loadJson fs usersFile []).find?
          (loginMatch { email := "a@x.com", password := r.password, role := r.role }) = none := by
        rw [List.find?_eq_none] at hfind ⊢
        intro x hx hlm
        apply hfind x hx
        simp only [loginMatch, Bool.and_eq_true] at hlm
        simpa [String.toLowerCase] using hlm.1.1
      have hmatch : loginMatch { email := "a@x.com", password := r.password, role := r.role }
          (mkUser now r) = true := by
        simp only [loginMatch, mkUser, Bool.and_eq_true]
        refine ⟨⟨?_, ?_⟩, ?_⟩
        · rw [he]; decide
        · simp
        · rw [if_neg hrl]; simp
      have hmem : ((mkUser now r).email.toLowerCase == "a@x.com") = true := by
        simp only [mkUser]
        rw [he]
        decide
      have hmatch2 : loginMatch { email := "a@x.com", password := r.password, role := r.role }
          { mkUser now r with status := "approved" } = true := by
        simp only [loginMatch, mkUser, Bool.and_eq_true]
        refine ⟨⟨?_, ?_⟩, ?_⟩
        · rw [he]; decide
        · simp
        · rw [if_neg hrl]; simp
      constructor
      · simp only [login]
        rw [if_neg hcond, loadJson_saveJson, find?_append_none hpre, List.find?_cons, hmatch]
        simp [mkUser]
      · have hset : (setStatus "a@x.com" "approved"
            (saveJson fs usersFile (loadJson fs usersFile [] ++ [mkUser now r]))).2
            = saveJson (saveJson fs usersFile (loadJson fs usersFile [] ++ [mkUser now r]))
                usersFile
                (loadJson fs usersFile [] ++ [{ mkUser now r with status := "approved" }]) := by
          simp only [setStatus]
          rw [if_neg (by decide), loadJson_saveJson]
          rw [show ("a@x.com".toLowerCase) = "a@x.com" from rfl]
          rw [find?_append_none hfind]
          simp only [List.find?_cons, hmem]
          rw [replaceFirst_append_none hfind]
          simp [replaceFirst, hmem]
        rw [hset]
        simp only [login]
        rw [if_neg hcond, loadJson_saveJson, find?_append_none hpre]
        simp only [List.find?_cons, hmatch2]
        simp

/-- Witness for the amended C1 at a concrete accepted signup. -/
theorem signup_then_login_after_approval_witness :
    login { email := "a@x.com", password := "pw", role := "student" }
      (saveJson ([] : UsersFs) usersFile [mkUser "t0" c1Req]) = LoginRes.pendingApproval ∧
    login { email := "a@x.com", password := "pw", role := "student" }
      (setStatus "a@x.com" "approved" (saveJson ([] : UsersFs) usersFile [mkUser "t0" c1Req])).2
      = LoginRes.ok (publicOf { mkUser "t0" c1Req with status := "approved" }) :=
  signup_then_login_after_approval "t0" c1Req [] (mkUser "t0" c1Req)
    (saveJson ([] : UsersFs) usersFile [mkUser "t0" c1Req]) rfl rfl

-- ------------------------------------------------------------------
-- Claim C5: duplicate signup differing only in email case.
-- ------------------------------------------------------------------

/-- C5: after a signup with email "b@x.com" is accepted, a second
well-formed signup whose email is "B@X.com" is rejected with the 409
conflict response and leaves the users file system unchanged. -/
theorem signup_case_insensitive_duplicate_conflict
    (now1 now2 : String) (r1 r2 : SignupReq) (fs : UsersFs) (u : User) (fs1 : UsersFs)
    (he1 : r1.email = "b@x.com") (he2 : r2.email = "B@X.com")
    (hn : r2.name ≠ "") (hph : r2.phone ≠ "") (hpw : r2.password ≠ "") (hrl : r2.role ≠ "")
    (h : signup now1 r1 fs = (SignupRes.created u, fs1)) :
    signup now2 r2 fs1 = (SignupRes.emailRegistered, fs1) := by
  simp only [signup] at h
  rw [he1] at h
  rw [show ("b@x.com".toLowerCase) = "b@x.com" from rfl] at h
  split at h
  · simp at h
  · split at h
    · simp at h
    · rename_i hfind
      simp only [Prod.mk.injEq, SignupRes.created.injEq] at h
      obtain ⟨hu, hfs1⟩ := h
      subst hu
      subst hfs1
      have hmem : ((mkUser now1 r1).email.toLowerCase == "b@x.com") = true := by
        simp only [mkUser]
        rw [he1]
        decide
      simp only [signup]
      rw [he2]
      rw [show ("B@X.com".toLowerCase) = "b@x.com" from rfl]
      rw [if_neg (by push_neg; exact ⟨hn, by decide, hph, hpw, hrl⟩)]
      rw [loadJson_saveJson, find?_append_none hfind]
      simp only [List.find?_cons, hmem]

/-- A concrete first signup request for the C5 witness. -/
def c5Req1 : SignupReq :=
  { name := "Bo", email := "b@x.com", phone := "2", password := "pw",
    role := "student", courseType := none }

/-- A concrete second signup request for the C5 witness, with the same
email up to letter case. -/
def c5Req2 : SignupReq :=
  { name := "Bea", email := "B@X.com", phone := "3", password := "pw2",
    role := "teacher", courseType := none }

/-- Witness for C5 at two concrete signup requests. -/
theorem signup_case_insensitive_duplicate_conflict_witness :
    signup "t1" c5Req2 (saveJson ([] : UsersFs) usersFile [mkUser "t0" c5Req1])
      = (SignupRes.emailRegistered, saveJson ([] : UsersFs) usersFile [mkUser "t0" c5Req1]) :=
  signup_case_insensitive_duplicate_conflict "t0" "t1" c5Req1 c5Req2 [] (mkUser "t0" c5Req1)
    (saveJson ([] : UsersFs) usersFile [mkUser "t0" c5Req1]) rfl rfl
    (by decide) (by decide) (by decide) (by decide) rfl

-- ------------------------------------------------------------------
-- Claim C9: shape of the login success body.
-- ------------------------------------------------------------------

/-- C9: every login success body carries exactly the name, email,
role, status and courseType of the matched user record (the PublicUser
shape), and this projection is independent of the stored password, so
the password is never included, unlike signup which echoes the full
record. -/
theorem login_response_public_fields (r : LoginReq) (fs : UsersFs) (p : PublicUser)
    (h : login r fs = LoginRes.ok p) :
    (∃ u, (loadJson fs usersFile []).find? (loginMatch r) = some u ∧
      p = publicOf u ∧ p.name = u.name ∧ p.email = u.email ∧ p.role = u.role ∧
      p.status = u.status ∧ p.courseType = u.courseType) ∧
    (∀ (v : User) (pw : String), publicOf { v with password := pw } = publicOf v) := by
  constructor
  · simp only [login] at h
    split at h
    · simp at h
    · split at h
      · simp at h
      · rename_i u hfind
        split at h
        · simp at h
        · split at h
          · simp at h
          · simp only [LoginRes.ok.injEq] at h
            subst h
            exact ⟨u, hfind, rfl, rfl, rfl, rfl, rfl, rfl⟩
  · intro v pw
    rfl

/-- A concrete approved user for the C9 witness. -/
def c9User : User :=
  { name := "Cy", email := "c@x.com", phone := "4", password := "s3",
    role := "teacher", courseType := none, status := "approved",
    createdAt := "t", courses := [], projectLog := [], profile := [] }

/-- Witness for C9 at a concrete successful login. -/
theorem login_response_public_fields_witness :
    (∃ u, (loadJson (saveJson ([] : UsersFs) usersFile [c9User]) usersFile []).find?
        (loginMatch { email := "c@x.com", password := "s3", role := "teacher" }) = some u ∧
      publicOf c9User = publicOf u ∧ (publicOf c9User).name = u.name ∧
      (publicOf c9User).email = u.email ∧ (publicOf c9User).role = u.role ∧
      (publicOf c9User).status = u.status ∧ (publicOf c9User).courseType = u.courseType) ∧
    (∀ (v : User) (pw : String), publicOf { v with password := pw } = publicOf v) :=
  login_response_public_fields { email := "c@x.com", password := "s3", role := "teacher" }
    (saveJson ([] : UsersFs) usersFile [c9User]) (publicOf c9User) rfl

-- ------------------------------------------------------------------
-- Claim C10: progress coercion of the course PATCH route.
-- ------------------------------------------------------------------

/-- C10: when a course-progress update reaches the mutation step, the
progress stored for the course (and echoed in the response) is
Number(progress or-else 0): a falsy progress field, the absent field
included, stores 0, and a truthy non-numeric string stores NaN rather
than being rejected. -/
theorem patch_progress_number_coercion
    (emailParam name : String) (progress : JsValue) (fs : UsersFs) (c : Course) (fs2 : UsersFs)
    (h : patchCourse emailParam name progress fs = (PatchCourseRes.updated c, fs2)) :
    c.progress = toNumber (jsOr progress (.num (.int 0))) ∧
    (truthy progress = false → c.progress = .int 0) ∧
    (∀ s, progress = .str s → strToNum s = .nan → c.progress = .nan) ∧
    ∃ u2, (loadJson fs2 usersFile []).find?
        (fun u => u.email.toLowerCase == emailParam.toLowerCase) = some u2 ∧
      u2.courses.find? (fun cc => cc.name == name) = some c := by
  simp only [patchCourse] at h
  split at h
  · simp at h
  · split at h
    · simp at h
    · rename_i me hme
      split at h
      · simp at h
      · rename_i c0 hc0
        simp only [Prod.mk.injEq, PatchCourseRes.updated.injEq] at h
        obtain ⟨hc, hfs2⟩ := h
        subst hc
        subst hfs2
        refine ⟨rfl, ?_, ?_, ?_⟩
        · intro ht
          simp [jsOr, ht, toNumber]
        · intro s hs hnan
          subst hs
          by_cases hempty : s = ""
          · subst hempty
            exact absurd hnan (by decide)
          · have ht : truthy (.str s) = true := by simp [truthy, hempty]
            simp [jsOr, ht, toNumber, hnan]
        · have hpu : (me.email.toLowerCase == emailParam.toLowerCase) = true := by
            have hh := List.find?_some hme
            simpa using hh
          have hpc : (c0.name == name) = true := by
            have hh := List.find?_some hc0
            simpa using hh
          refine ⟨{ me with courses := replaceFirst (fun cc => cc.name == name) ({ c0 with progress := toNumber (jsOr progress (JsValue.num (JsNum.int 0))) }) me.courses }, ?_, ?_⟩
          · rw [loadJson_saveJson]
            exact find?_replaceFirst_same hme hpu
          · dsimp only
            exact find?_replaceFirst_same hc0 hpc

/-- A concrete student with one course for the C10 witness. -/
def c10User : User :=
  { name := "Di", email := "d@x.com", phone := "5", password := "p5",
    role := "student", courseType := none, status := "approved",
    createdAt := "t", courses := [{ name := "Math", progress := .int 10 }],
    projectLog := [], profile := [] }

/-- Witness for C10 at a concrete update whose progress field is the
non-numeric string "abc": the stored progress is NaN. -/
theorem patch_progress_number_coercion_witness :
    ({ name := "Math", progress := JsNum.nan } : Course).progress
      = toNumber (jsOr (JsValue.str "abc") (.num (.int 0))) ∧
    (truthy (JsValue.str "abc") = false →
      ({ name := "Math", progress := JsNum.nan } : Course).progress = .int 0) ∧
    (∀ s, JsValue.str "abc" = .str s → strToNum s = .nan →
      ({ name := "Math", progress := JsNum.nan } : Course).progress = .nan) ∧
    ∃ u2, (loadJson (patchCourse "d@x.com" "Math" (JsValue.str "abc")
          (saveJson ([] : UsersFs) usersFile [c10User])).2 usersFile []).find?
        (fun u => u.email.toLowerCase == "d@x.com".toLowerCase) = some u2 ∧
      u2.courses.find? (fun cc => cc.name == "Math")
        = some { name := "Math", progress := JsNum.nan } :=
  patch_progress_number_coercion "d@x.com" "Math" (JsValue.str "abc")
    (saveJson ([] : UsersFs) usersFile [c10User])
    { name := "Math", progress := JsNum.nan }
    (patchCourse "d@x.com" "Math" (JsValue.str "abc")
      (saveJson ([] : UsersFs) usersFile [c10User])).2 rfl

-- ------------------------------------------------------------------
-- Claim C6: adding "Math" twice, then patching its progress to 75.
-- ------------------------------------------------------------------

/-- C6: for every student for whom adding the course "Math" succeeds
(201), adding "Math" again is rejected with the 409 conflict and
leaves the store unchanged, and a subsequent progress update of "Math"
to 75 responds with the course \x7b Math, 75 \x7d and leaves the
student with exactly one course entry named "Math", whose progress is
75. -/
theorem course_math_add_twice_then_patch
    (emailParam : String) (fs : UsersFs) (cs1 : List Course) (fs1 : UsersFs)
    (h : addCourse emailParam "Math" fs = (AddCourseRes.courseAdded cs1, fs1)) :
    addCourse emailParam "Math" fs1 = (AddCourseRes.alreadyAdded, fs1) ∧
    (patchCourse emailParam "Math" (JsValue.num (JsNum.int 75)) fs1).1
      = PatchCourseRes.updated { name := "Math", progress := JsNum.int 75 } ∧
    ∃ u2, (loadJson (patchCourse emailParam "Math" (JsValue.num (JsNum.int 75)) fs1).2
        usersFile []).find? (fun u => u.email.toLowerCase == emailParam.toLowerCase)
        = some u2 ∧
      u2.courses.filter (fun c => c.name == "Math")
        = [{ name := "Math", progress := JsNum.int 75 }] := by
  simp only [addCourse] at h
  rw [if_neg (by decide)] at h
  split at h
  · simp at h
  · rename_i me hme
    split at h
    · simp at h
    · rename_i hc
      simp only [Prod.mk.injEq, AddCourseRes.courseAdded.injEq] at h
      obtain ⟨hcs, hfs1⟩ := h
      subst hfs1
      have hpu : (me.email.toLowerCase == emailParam.toLowerCase) = true := by
        have hh := List.find?_some hme
        simpa using hh
      have hfound : (replaceFirst (fun u => u.email.toLowerCase == emailParam.toLowerCase)
          ({ me with courses := me.courses ++ [{ name := "Math", progress := JsNum.int 0 }] })
          (loadJson fs usersFile [])).find?
            (fun u => u.email.toLowerCase == emailParam.toLowerCase)
          = some ({ me with courses := me.courses ++ [{ name := "Math", progress := JsNum.int 0 }] }) :=
        find?_replaceFirst_same hme hpu
      refine ⟨?_, ?_, ?_⟩
      · simp only [addCourse]
        rw [if_neg (by decide), loadJson_saveJson, hfound]
        dsimp only
        rw [find?_append_none hc]
        simp [List.find?_cons]
      · simp only [patchCourse]
        rw [if_neg (by decide), loadJson_saveJson, hfound]
        dsimp only
        rw [find?_append_none hc]
        simp [List.find?_cons, jsOr, truthy, toNumber]
      · simp only [patchCourse]
        rw [if_neg (by decide), loadJson_saveJson, hfound]
        dsimp only
        rw [find?_append_none hc]
        simp only [List.find?_cons, show (("Math" : String) == "Math") = true from rfl]
        rw [loadJson_saveJson]
        refine ⟨_, find?_replaceFirst_same hfound hpu, ?_⟩
        dsimp only
        rw [replaceFirst_append_none hc]
        rw [List.filter_append, filter_nil_of_find?_none hc]
        simp [replaceFirst, jsOr, truthy, toNumber, List.filter]

/-- A concrete student with no courses for the C6 witness. -/
def c6User : User :=
  { name := "Sam", email := "s@x.com", phone := "6", password := "p6",
    role := "student", courseType := none, status := "approved",
    createdAt := "t", courses := [], projectLog := [], profile := [] }

/-- The users file system of the C6 witness. -/
def c6Fs : UsersFs := saveJson ([] : UsersFs) usersFile [c6User]

/-- The users file system of the C6 witness after the first add. -/
def c6Fs1 : UsersFs := (addCourse "s@x.com" "Math" c6Fs).2

/-- Witness for C6 at a concrete student. -/
theorem course_math_add_twice_then_patch_witness :
    addCourse "s@x.com" "Math" c6Fs1 = (AddCourseRes.alreadyAdded, c6Fs1) ∧
    (patchCourse "s@x.com" "Math" (JsValue.num (JsNum.int 75)) c6Fs1).1
      = PatchCourseRes.updated { name := "Math", progress := JsNum.int 75 } ∧
    ∃ u2, (loadJson (patchCourse "s@x.com" "Math" (JsValue.num (JsNum.int 75)) c6Fs1).2
        usersFile []).find? (fun u => u.email.toLowerCase == "s@x.com".toLowerCase)
        = some u2 ∧
      u2.courses.filter (fun c => c.name == "Math")
        = [{ name := "Math", progress := JsNum.int 75 }] :=
  course_math_add_twice_then_patch "s@x.com" c6Fs
    [{ name := "Math", progress := JsNum.int 0 }] c6Fs1 rfl

-- ------------------------------------------------------------------
-- Claim C8: case-insensitive email uniqueness is an invariant.
-- ------------------------------------------------------------------

theorem usersUnique_signup (now : String) (r : SignupReq) (fs : UsersFs)
    (h : usersUnique (loadJson fs usersFile [])) :
    usersUnique (loadJson (signup now r fs).2 usersFile []) := by
  simp only [signup]
  split
  · exact h
  · split
    · exact h
    · rename_i hfind
      dsimp only
      rw [loadJson_saveJson]
      unfold usersUnique
      rw [List.map_append, List.pairwise_append]
      refine ⟨h, by simp, ?_⟩
      intro a ha b hb
      rw [List.find?_eq_none] at hfind
      simp only [List.map_cons, List.map_nil, List.mem_singleton] at hb
      subst hb
      simp only [List.mem_map] at ha
      obtain ⟨u, hu, rfl⟩ := ha
      have hne := hfind u hu
      intro heq
      apply hne
      simp only [mkUser] at heq
      simp [heq]

theorem usersUnique_setStatus (e s : String) (fs : UsersFs)
    (h : usersUnique (loadJson fs usersFile [])) :
    usersUnique (loadJson (setStatus e s fs).2 usersFile []) := by
  simp only [setStatus]
  split
  · exact h
  · split
    · exact h
    · rename_i u hfind
      have hu : u.email.toLowerCase = e.toLowerCase := by
        have hh := List.find?_some hfind
        simpa using hh
      have hcond : ∀ a : User, (a.email.toLowerCase == e.toLowerCase) = true →
          ({ u with status := s } : User).email.toLowerCase = a.email.toLowerCase := by
        intro a ha
        have h2 : a.email.toLowerCase = e.toLowerCase := by simpa using ha
        show u.email.toLowerCase = a.email.toLowerCase
        rw [hu, h2]
      dsimp only
      rw [loadJson_saveJson]
      unfold usersUnique
      rw [map_replaceFirst _ hcond]
      exact h

/-- C8: starting from the empty users collection, after any sequence
of signup and admin status-update requests no two records of the users
collection have case-insensitively equal emails. -/
theorem users_email_unique_invariant (ops : List Op) :
    usersUnique (loadJson (ops.foldl applyOp ([] : UsersFs)) usersFile []) := by
  suffices hgen : ∀ fs : UsersFs, usersUnique (loadJson fs usersFile []) →
      usersUnique (loadJson (ops.foldl applyOp fs) usersFile []) by
    exact hgen [] (by simp [loadJson, Fs.read, usersUnique])
  induction ops with
  | nil => exact fun fs h => h
  | cons op rest ih =>
    intro fs h
    simp only [List.foldl_cons]
    apply ih
    cases op with
    | signup now r => exact usersUnique_signup now r fs h
    | setStatus e s => exact usersUnique_setStatus e s fs h
